import Mathlib

/-
Verification development for the MTA_Subway_Tracker repository.

The pipeline under study lives in `build_training_data.py` (time parsing,
service-calendar resolution, trip matching, delay computation, final
filtering) and `app/App.py` (the observation store: a truncate-then-insert
snapshot table and an insert-or-ignore deduplicated historical table).

Python fragments are shallowly embedded: pure functions become Lean
functions on `String` / `List Char` / `Int`; a Python function that can
let an exception escape returns `PyResult`, whose `exn` constructor names
the escaping exception.  All definitions are computable so that concrete
runs can be settled by `decide` / `rfl`.
-/

/-- Result of running a Python function: either a returned value or an
uncaught exception (identified by the exception class name). -/
inductive PyResult (α : Type) where
  | val : α → PyResult α
  | exn : String → PyResult α
deriving DecidableEq, Repr

/-- An argument passed into `robust_time_parser`: either a Python `str`
(with its contents) or any non-string value (the code only tests
`isinstance(time_str, str)`, so all non-strings behave alike). -/
inductive PyObj where
  | pstr : String → PyObj
  | nonstr : PyObj
deriving DecidableEq, Repr

/-- ASCII decimal digit test, i.e. code point between '0' (48) and '9'
(57) (the repository's data is ASCII; Python's wider Unicode-digit
acceptance is not exercised by it). -/
def isDigitCh (c : Char) : Bool := decide (48 ≤ c.toNat) && decide (c.toNat ≤ 57)

/-- Whitespace stripped by Python's `int(str)` conversion (ASCII range). -/
def isPyWs (c : Char) : Bool :=
  c == ' ' || c == '\t' || c == '\n' || c == '\r' || c == '\x0b' || c == '\x0c'

/-- Strip leading and trailing whitespace, as `int(str)` does. -/
def stripWsL (cs : List Char) : List Char :=
  ((cs.dropWhile isPyWs).reverse.dropWhile isPyWs).reverse

/-- After an initial digit, the remaining characters of a Python integer
literal body: digits, with single underscores allowed only between digits. -/
def digitsOkAux : List Char → Bool
  | [] => true
  | '_' :: rest =>
    match rest with
    | [] => false
    | d :: rest2 => isDigitCh d && digitsOkAux rest2
  | c :: rest => isDigitCh c && digitsOkAux rest

/-- Whether a (sign-stripped) character list is a valid body for Python's
`int(str)`: nonempty, starts with a digit, underscores only between digits. -/
def digitsOk : List Char → Bool
  | [] => false
  | c :: rest => isDigitCh c && digitsOkAux rest

/-- Numeric value of an ASCII digit. -/
def digitVal (c : Char) : Nat := c.toNat - 48

/-- Value of a digit string (underscores already filtered out). -/
def digitsVal (cs : List Char) : Nat :=
  (cs.filter isDigitCh).foldl (fun a c => a * 10 + digitVal c) 0

/-- Python `int(str)` on a character list: strips whitespace, accepts an
optional sign, digits with embedded single underscores; `none` models the
`ValueError` raised on malformed input.  CPython additionally rejects
conversions of more than 4300 digits (`ValueError` as well). -/
def pyIntL (cs0 : List Char) : Option Int :=
  let cs := stripWsL cs0
  match cs with
  | '+' :: r => if digitsOk r && decide ((r.filter isDigitCh).length ≤ 4300)
                then some (digitsVal r : Int) else none
  | '-' :: r => if digitsOk r && decide ((r.filter isDigitCh).length ≤ 4300)
                then some (-(digitsVal r : Int)) else none
  | r => if digitsOk r && decide ((r.filter isDigitCh).length ≤ 4300)
         then some (digitsVal r : Int) else none

/-- Python `int(str)` on a `String`. -/
def pyInt (s : String) : Option Int := pyIntL s.data

/-- Python `str.split(sep)` for a one-character separator: every occurrence
splits, empty pieces are kept, and splitting the empty string yields one
empty piece. -/
def pySplit (sep : Char) : List Char → List (List Char)
  | [] => [[]]
  | c :: rest =>
    if c == sep then [] :: pySplit sep rest
    else
      match pySplit sep rest with
      | [] => [[c]]
      | g :: gs => (c :: g) :: gs

/-- One field of `strptime`'s `%H`/`%M`/`%S` patterns: a single digit, or
two digits whose value is at most `bound` (23 for `%H`, 59 for `%M`/`%S`). -/
def fieldVal2 (cs : List Char) (bound : Nat) : Option Nat :=
  match cs with
  | [c] => if isDigitCh c then some (digitVal c) else none
  | [c1, c2] =>
    if isDigitCh c1 && isDigitCh c2 && decide (digitVal c1 * 10 + digitVal c2 ≤ bound)
    then some (digitVal c1 * 10 + digitVal c2) else none
  | _ => none

/-- `datetime.datetime.strptime(s, "%H:%M:%S").time()` as seconds from
midnight, or `none` for the `ValueError` branch.  The CPython pattern
accepts one- or two-digit fields (`%H` ≤ 23, `%M` ≤ 59); the `%S` regex
also admits the leap-second values 60 and 61, but the subsequent
`datetime` construction then raises `ValueError`, so the overall call
succeeds exactly when the seconds field is ≤ 59. -/
def strptimeHMS (cs : List Char) : Option Nat :=
  match pySplit ':' cs with
  | [a, b, c] =>
    match fieldVal2 a 23, fieldVal2 b 59, fieldVal2 c 59 with
    | some h, some m, some s => some (h * 3600 + m * 60 + s)
    | _, _, _ => none
  | _ => none

/-- Whole seconds between `datetime.min` and `datetime.max`
(`(9999-12-31 23:59:59) - (0001-01-01 00:00:00)`); an offset outside
`[0, pyMaxDatetimeOffset]` makes `datetime.min + timedelta(...)` raise
`OverflowError` (as does an out-of-range `timedelta` itself). -/
def pyMaxDatetimeOffset : Nat := 315537897599

/-- Fallback branch of `robust_time_parser` (build_training_data.py lines
17-24): split on ':', convert the first three pieces with `int` (a failed
conversion raises `ValueError`, a missing piece `IndexError`, both caught
and turned into `None`), then `(datetime.min + timedelta(hours=h,
minutes=m, seconds=s)).time()`, i.e. the total offset reduced modulo one
day.  A negative or astronomically large offset raises `OverflowError`,
which the `except (ValueError, IndexError)` clause does NOT catch. -/
def fallbackMTA (cs : List Char) : PyResult (Option Nat) :=
  match pySplit ':' cs with
  | [] => .val none
  | p0 :: rest =>
    match pyIntL p0 with
    | none => .val none
    | some h =>
      match rest with
      | [] => .val none
      | p1 :: rest2 =>
        match pyIntL p1 with
        | none => .val none
        | some m =>
          match rest2 with
          | [] => .val none
          | p2 :: _ =>
            match pyIntL p2 with
            | none => .val none
            | some s =>
              let off : Int := h * 3600 + m * 60 + s
              if 0 ≤ off ∧ off ≤ (pyMaxDatetimeOffset : Int)
              then .val (some (off.toNat % 86400))
              else .exn "OverflowError"

/-- `robust_time_parser` (build_training_data.py lines 5-24): non-strings
return `None`; otherwise standard `strptime` parsing is tried first and,
on its `ValueError`, the extended-hour fallback runs.  The result, when
any, is a `datetime.time`, embedded as seconds from midnight (< 86400). -/
def robust_time_parse : PyObj → PyResult (Option Nat)
  | .nonstr => .val none
  | .pstr s =>
    match strptimeHMS s.data with
    | some t => .val (some t)
    | none => fallbackMTA s.data

/-- Core arithmetic of `calculate_delay` (lines 37-46) once both times are
parsed: both are attached to the same dummy date, so the comparison and
difference reduce to their seconds-from-midnight values; if the observed
time is more than 12 hours earlier than the scheduled one, a day is added
to the observed time before differencing. -/
def calcDelayCore (sv av : Nat) : Int :=
  if (av : Int) < (sv : Int) ∧ (sv : Int) - (av : Int) > 12 * 3600
  then ((av : Int) + 86400) - (sv : Int)
  else (av : Int) - (sv : Int)

/-- `calculate_delay` (build_training_data.py lines 26-46): parses the
scheduled then the actual time (an exception escaping the parser
propagates), returns `None` when either parse returned `None`, and the
signed difference in seconds otherwise. -/
def calculate_delay (sched act : PyObj) : PyResult (Option Int) :=
  match robust_time_parse sched with
  | .exn e => .exn e
  | .val stO =>
    match robust_time_parse act with
    | .exn e => .exn e
    | .val atO =>
      match stO, atO with
      | some sv, some av => .val (some (calcDelayCore sv av))
      | _, _ => .val none

/-- One row of `calendar.txt` as loaded by `build_training_data.py`:
`start_date`/`end_date` are read as integers (`dtype` forced), the weekday
columns are integer 0/1 flags compared against `1`. -/
structure CalRow where
  service_id : String
  monday : Int
  tuesday : Int
  wednesday : Int
  thursday : Int
  friday : Int
  saturday : Int
  sunday : Int
  start_date : Int
  end_date : Int
deriving DecidableEq, Repr

/-- Python leap-year rule used by `datetime.date` (proleptic Gregorian). -/
def isLeap (y : Nat) : Bool := (y % 4 == 0 && y % 100 != 0) || y % 400 == 0

/-- Days in month `m` of year `y` (proleptic Gregorian). -/
def monthDays (y m : Nat) : Nat :=
  if m = 2 then (if isLeap y then 29 else 28)
  else if m = 4 ∨ m = 6 ∨ m = 9 ∨ m = 11 then 30
  else 31

/-- Validity of arguments to `datetime.date(year, month, day)`; out-of-range
arguments raise `ValueError`. -/
def dateOkI (yi mi di : Int) : Bool :=
  decide (1 ≤ yi) && decide (yi ≤ 9999) && decide (1 ≤ mi) && decide (mi ≤ 12) &&
  decide (1 ≤ di) && decide (di ≤ (monthDays yi.toNat mi.toNat : Nat))

/-- Days in all years before year `y` (proleptic Gregorian), as in
`datetime.date.toordinal`. -/
def daysBeforeYear (y : Nat) : Nat :=
  365 * (y - 1) + (y - 1) / 4 - (y - 1) / 100 + (y - 1) / 400

/-- Days in the months of year `y` strictly before month `m`. -/
def daysBeforeMonth (y m : Nat) : Nat :=
  (List.range (m - 1)).foldl (fun a i => a + monthDays y (i + 1)) 0

/-- `datetime.date(y, m, d).toordinal()`: day 1 is 0001-01-01. -/
def toordinal (y m d : Nat) : Nat := daysBeforeYear y + daysBeforeMonth y m + d

/-- `datetime.date(y, m, d).weekday()`: Monday is 0, Sunday is 6
(0001-01-01 was a Monday). -/
def pyWeekday (y m d : Nat) : Nat := (toordinal y m d + 6) % 7

/-- Python slice `s[a:b]` (for `0 ≤ a ≤ b`). -/
def pySliceStr (s : String) (a b : Nat) : String := ⟨(s.data.drop a).take (b - a)⟩

/-- The `day_map` dict of `get_service_id_for_date` (lines 59-62). -/
def day_map : List (Nat × String) :=
  [(0, "monday"), (1, "tuesday"), (2, "wednesday"), (3, "thursday"),
   (4, "friday"), (5, "saturday"), (6, "sunday")]

/-- `dict.get` on `day_map`. -/
def dictGet (l : List (Nat × String)) (k : Nat) : Option String :=
  (l.find? (fun p => p.1 == k)).map (fun p => p.2)

/-- Dynamic column access `calendar_df[day_col]` for one row: selects the
weekday flag named by `col`.  A name outside the seven columns would raise
`KeyError`; it is unreachable here because `day_map` only produces the
seven names (the `0` default is never used). -/
def colFlag (r : CalRow) (col : String) : Int :=
  if col = "monday" then r.monday
  else if col = "tuesday" then r.tuesday
  else if col = "wednesday" then r.wednesday
  else if col = "thursday" then r.thursday
  else if col = "friday" then r.friday
  else if col = "saturday" then r.saturday
  else if col = "sunday" then r.sunday
  else 0

/-- The weekday flag of a calendar row addressed by Python weekday number
(Monday = 0), used to state the resolver's contract independently of the
string-keyed `day_map` indirection. -/
def weekFlag (r : CalRow) (w : Nat) : Int :=
  if w = 0 then r.monday
  else if w = 1 then r.tuesday
  else if w = 2 then r.wednesday
  else if w = 3 then r.thursday
  else if w = 4 then r.friday
  else if w = 5 then r.saturday
  else if w = 6 then r.sunday
  else 0

/-- `get_service_id_for_date` (build_training_data.py lines 48-75): slice
the `YYYYMMDD` string into year/month/day, build a `datetime.date` (a
failed `int` or an invalid date raises `ValueError`, uncaught), look the
weekday up in `day_map`, filter the calendar rows on the inclusive
validity window (compared against `int(date_str)`) and the weekday flag,
and return the first surviving `service_id` in stored order, else `None`.
The pandas boolean filter and `.tolist()` preserve the stored row order. -/
def get_service_id_for_date (ds : String) (calendar : List CalRow) :
    PyResult (Option String) :=
  match pyInt (pySliceStr ds 0 4) with
  | none => .exn "ValueError"
  | some yi =>
    match pyInt (pySliceStr ds 4 6) with
    | none => .exn "ValueError"
    | some mi =>
      match pyInt (pySliceStr ds 6 8) with
      | none => .exn "ValueError"
      | some di =>
        if dateOkI yi mi di then
          let w := pyWeekday yi.toNat mi.toNat di.toNat
          match dictGet day_map w with
          | none => .val none
          | some col =>
            match pyInt ds with
            | none => .exn "ValueError"
            | some n =>
              let active := (calendar.filter (fun r =>
                decide (r.start_date ≤ n) && decide (n ≤ r.end_date) &&
                decide (colFlag r col = 1))).map (fun r => r.service_id)
              .val active.head?
        else .exn "ValueError"

/-- A row of the real-time dataframe at the point of the trip-matching
merge (service id already resolved, non-key columns omitted as they do
not influence the join keys). -/
structure RtObs where
  trip_id : String
  route_id : String
  direction_id : String
  service_id : String
  start_date : String
  stop_id : String
  actual_arrival : String
deriving DecidableEq, Repr

/-- A row of `trips.txt` restricted to the columns the merge uses. -/
structure StaticTrip where
  trip_id : String
  route_id : String
  direction_id : String
  service_id : String
deriving DecidableEq, Repr

/-- Python `'_' in s`. -/
def containsCh (s : String) (c : Char) : Bool := s.data.any (fun x => x == c)

/-- `x.split('_')[0] if '_' in x else x` (line 127): the start-time token
of a real-time trip id is the substring before the first underscore. -/
def realtime_start_time_str (tid : String) : String :=
  if containsCh tid '_' then ⟨(pySplit '_' tid.data).headD []⟩ else tid

/-- `x.split('_', 1)[-1].split('_')[0] if '_' in x else x` (line 130): the
start-time token of a static trip id is the substring between the first
and second underscores (everything after the first underscore when there
is no second one). -/
def static_start_time_str (tid : String) : String :=
  if containsCh tid '_' then ⟨((pySplit '_' tid.data).drop 1).headD []⟩ else tid

/-- Equality of the four merge keys of the `pd.merge` call at lines
143-150: `route_id`, `direction_id`, `service_id` and the derived
start-time tokens. -/
def tripKeyMatch (r : RtObs) (t : StaticTrip) : Bool :=
  decide (r.route_id = t.route_id) && decide (r.direction_id = t.direction_id) &&
  decide (r.service_id = t.service_id) &&
  decide (realtime_start_time_str r.trip_id = static_start_time_str t.trip_id)

/-- The inner merge of lines 143-150: every real-time row is paired with
every static trip agreeing on all four keys (pandas keeps the order of the
left keys and, within one left row, the right rows' order); rows with no
partner on the other side are dropped. -/
def merge_rt_static (rts : List RtObs) (trips : List StaticTrip) :
    List (RtObs × StaticTrip) :=
  rts.foldl (fun acc r => acc ++ (trips.filter (tripKeyMatch r)).map (fun t => (r, t))) []

/-- One row of the `trip_updates` tables of `app/App.py` (the `id`
autoincrement column is omitted: it takes no part in the natural key or in
any claim). -/
structure Obs where
  route_id : String
  trip_id : String
  direction_id : Int
  track_direction : String
  start_time : String
  start_date : String
  stop_name : String
  arrival_time : String
  departure_time : String
deriving DecidableEq, Repr

/-- One `stop_time_update` message of a decoded trip update.  The epoch
timestamps have already been through the external
`datetime.fromtimestamp(..., ZoneInfo("America/New_York"))` conversion and
the `str(...)[11:19]` slice (App.py lines 85-90); that wall-clock
rendering depends on the external tz database, so the resulting local time
strings are taken as given, per the spec's "zone-localized at ingestion". -/
structure StopTimeUpd where
  stop_id : String
  arrival_local : String
  departure_local : String
deriving DecidableEq, Repr

/-- The `trip` descriptor of a decoded `trip_update` entity. -/
structure TripDesc where
  route_id : String
  trip_id : String
  direction_id : Int
  start_time : String
  start_date : String
deriving DecidableEq, Repr

/-- A decoded `trip_update` with its per-stop updates. -/
structure TripUpd where
  trip : TripDesc
  stop_time_update : List StopTimeUpd
deriving DecidableEq, Repr

/-- One element of the `responses` list handed to
`process_and_store_data`: the fetch yielded no content (`None`, skipped by
`if not response`), protobuf parsing raised (caught, feed skipped), or a
decoded feed whose entities may or may not carry a `trip_update` field. -/
inductive FeedRsp where
  | noContent : FeedRsp
  | badFeed : FeedRsp
  | feed : List (Option TripUpd) → FeedRsp
deriving DecidableEq, Repr

/-- Python `s.endswith(c)` for a single character. -/
def strEndsWith (s : String) (c : Char) : Bool :=
  match s.data.getLast? with
  | some c2 => c2 == c
  | none => false

/-- Track-direction derivation from the stop-id suffix (App.py lines
78-83). -/
def track_direction_of (stop_id : String) : String :=
  if strEndsWith stop_id 'N' then "Northbound"
  else if strEndsWith stop_id 'S' then "Southbound"
  else "Unknown"

/-- `stops_df.loc[stop_id, "stop_name"]` with the bare-`except` fallback to
the raw stop id (App.py lines 91-94); the stops table is keyed by its
first column. -/
def lookupStopName (stops : List (String × String)) (sid : String) : String :=
  match stops.find? (fun p => p.1 == sid) with
  | some p => p.2
  | none => sid

/-- The `data_tuple` built for one stop-time update (App.py lines 96-97). -/
def obsOf (stops : List (String × String)) (t : TripDesc) (stu : StopTimeUpd) : Obs :=
  { route_id := t.route_id
    trip_id := t.trip_id
    direction_id := t.direction_id
    track_direction := track_direction_of stu.stop_id
    start_time := t.start_time
    start_date := t.start_date
    stop_name := lookupStopName stops stu.stop_id
    arrival_time := stu.arrival_local
    departure_time := stu.departure_local }

/-- The rows contributed by one response: nothing for an absent or
unparseable feed, else one row per stop-time update of every entity that
has a `trip_update`, in feed order. -/
def rowsOfResponse (stops : List (String × String)) : FeedRsp → List Obs
  | .noContent => []
  | .badFeed => []
  | .feed ents =>
    ents.foldl (fun acc e =>
      acc ++ (match e with
              | none => []
              | some tu => tu.stop_time_update.map (obsOf stops tu.trip))) []

/-- All rows decoded in one ingestion cycle, in loop order. -/
def decodedRows (stops : List (String × String)) (responses : List FeedRsp) : List Obs :=
  responses.foldl (fun acc r => acc ++ rowsOfResponse stops r) []

/-- The natural key `UNIQUE(trip_id, start_date, stop_name)` of the
historical table (App.py line 33). -/
def natKey (o : Obs) : String × String × String := (o.trip_id, o.start_date, o.stop_name)

/-- Whether the table already holds a row with the given row's natural key. -/
def hasKeyB (tbl : List Obs) (o : Obs) : Bool :=
  tbl.any (fun r => decide (natKey r = natKey o))

/-- `INSERT OR IGNORE` against the `UNIQUE(trip_id, start_date, stop_name)`
constraint (App.py lines 104-108): the insert is skipped when a stored row
already has the same natural key, else the row is appended. -/
def insertOrIgnoreHist (tbl : List Obs) (o : Obs) : List Obs :=
  if hasKeyB tbl o then tbl else tbl ++ [o]

/-- `process_and_store_data` (App.py lines 46-114) at the level of the two
stores: the snapshot table is truncated (`DELETE FROM trip_updates`, line
54, making the previous snapshot contents irrelevant), then each decoded
row is appended to the snapshot and insert-or-ignored into the historical
table; returns (snapshot, historical) after commit. -/
def process_and_store_data (stops : List (String × String))
    (_rtPrev hist : List Obs) (responses : List FeedRsp) : List Obs × List Obs :=
  (decodedRows stops responses).foldl
    (fun st o => (st.1 ++ [o], insertOrIgnoreHist st.2 o)) (([] : List Obs), hist)

/-- A sequence of ingestion cycles (each with its stops table and fetched
responses) starting from the freshly created, empty databases of
`init_databases`. -/
def runCycles (cycles : List (List (String × String) × List FeedRsp)) :
    List Obs × List Obs :=
  cycles.foldl (fun st c => process_and_store_data c.1 st.1 st.2 c.2) ([], [])

/-- No two stored rows share the natural key. -/
def UniqueKeys (tbl : List Obs) : Prop :=
  tbl.Pairwise (fun a b => natKey a ≠ natKey b)

/-- Number of stored rows carrying a given natural key. -/
def countKey (tbl : List Obs) (k : String × String × String) : Nat :=
  (tbl.filter (fun r => decide (natKey r = k))).length

/-- A row of `final_df` in `main` (build_training_data.py lines 185-198)
just before the final filters; only the `delay_seconds` column (absent =
the `None` that pandas stores as NaN) and identifying columns matter to
the filters, which drop rows wholesale. -/
structure FinalRow where
  route_id : String
  trip_id_realtime : String
  stop_name : String
  delay_seconds : Option Int
deriving DecidableEq, Repr

/-- `final_df.dropna(subset=['delay_seconds'])` (line 193). -/
def dropnaDelay (rows : List FinalRow) : List FinalRow :=
  rows.filter (fun r => r.delay_seconds.isSome)

/-- `final_df[final_df['delay_seconds'].abs() < 7200]` (line 197). -/
def filterDelayMagnitude (rows : List FinalRow) : List FinalRow :=
  rows.filter (fun r =>
    match r.delay_seconds with
    | some v => decide (v.natAbs < 7200)
    | none => false)

/-- The emitted training dataset: NaN delays dropped, then implausible
magnitudes removed (lines 192-200). -/
def finalDataset (rows : List FinalRow) : List FinalRow :=
  filterDelayMagnitude (dropnaDelay rows)

/-- A real-time observation in MTA id style; its start-time token is
`"000600"`. -/
def rtAmb : RtObs :=
  { trip_id := "000600_1..S03R", route_id := "1", direction_id := "1",
    service_id := "Sun", start_date := "20240107", stop_id := "101S",
    actual_arrival := "00:06:30" }

/-- A static trip whose embedded token, route, direction and service all
match `rtAmb`. -/
def stAmb1 : StaticTrip :=
  { trip_id := "AFA23GEN-1038-Sunday-00_000600_1..S03R", route_id := "1",
    direction_id := "1", service_id := "Sun" }

/-- A second, distinct static trip with the same four join keys as
`stAmb1`, making `rtAmb` ambiguous. -/
def stAmb2 : StaticTrip :=
  { trip_id := "AFA23GEN-1038-Sunday-01_000600_1..N03R", route_id := "1",
    direction_id := "1", service_id := "Sun" }

/-- A one-row calendar: service `WKD`, valid through 2024, active on
Tuesdays only. -/
def calW : List CalRow :=
  [{ service_id := "WKD", monday := 0, tuesday := 1, wednesday := 0,
     thursday := 0, friday := 0, saturday := 0, sunday := 0,
     start_date := 20240101, end_date := 20241231 }]

/-- A concrete observation for exercising the historical store. -/
def obsW : Obs :=
  { route_id := "1", trip_id := "000600_1..S03R", direction_id := 1,
    track_direction := "Southbound", start_time := "00:06:00",
    start_date := "20240107", stop_name := "South Ferry",
    arrival_time := "00:06:30", departure_time := "00:07:00" }

/-- A final-table row with a plausible delay, kept by the filters. -/
def rowKept : FinalRow :=
  { route_id := "1", trip_id_realtime := "000600_1..S03R",
    stop_name := "South Ferry", delay_seconds := some 240 }

/-- A final-table row with a 9000-second delay, removed by the magnitude
filter. -/
def rowBig : FinalRow :=
  { route_id := "1", trip_id_realtime := "000600_1..S03R",
    stop_name := "Rector St", delay_seconds := some 9000 }

/-- A final-table row whose delay could not be computed (stored as NaN). -/
def rowNaN : FinalRow :=
  { route_id := "1", trip_id_realtime := "000600_1..S03R",
    stop_name := "Cortlandt St", delay_seconds := none }

/-- Input rows for exercising the final filters. -/
def rowsW : List FinalRow := [rowKept, rowBig, rowNaN]

/-- C1 counterexample: the code does not return the unwrapped
offset-from-midnight value, and `"7:5:9"` does not fail.  `parse("25:10:00")`
yields 01:10:00 (4200 s), not 25h10m (90600 s), because the fallback ends
with `.time()`, which reduces modulo 24 h; and `parse("7:5:9")` succeeds
with 7h5m9s because `strptime`'s `%H`/`%M`/`%S` accept single-digit
fields. -/
theorem c1_counterexample :
    robust_time_parse (.pstr "25:10:00") = .val (some 4200) ∧
    (4200 : Nat) ≠ 25 * 3600 + 10 * 60 ∧
    robust_time_parse (.pstr "7:5:9") = .val (some (7 * 3600 + 5 * 60 + 9)) := by
  decide

/-- C1 (amended): `parse("07:05:09")` = 7h5m9s; `parse("25:10:00")` =
1h10m0s, i.e. the extended-hour offset wrapped modulo 24 h; `parse("7:5:9")`
= 7h5m9s, single-digit fields being accepted; non-numeric and non-string
input yield the failure value. -/
theorem c1_amended :
    robust_time_parse (.pstr "07:05:09") = .val (some (7 * 3600 + 5 * 60 + 9)) ∧
    robust_time_parse (.pstr "25:10:00") = .val (some ((25 * 3600 + 10 * 60) % 86400)) ∧
    robust_time_parse (.pstr "7:5:9") = .val (some (7 * 3600 + 5 * 60 + 9)) ∧
    robust_time_parse (.pstr "ab:cd:ef") = .val none ∧
    robust_time_parse .nonstr = .val none := by
  decide

/-- C3: the claim that no exception ever escapes the Time Normalizer is
contradicted by the code: on `"-1:00:00"` the fallback computes
`datetime.min + timedelta(hours=-1)`, which raises `OverflowError`, a
class the `except (ValueError, IndexError)` handler does not catch. -/
theorem c3_crash :
    robust_time_parse (.pstr "-1:00:00") = .exn "OverflowError" := by
  decide

/-- C8: the claim that the Delay Calculator returns `None` whenever a time
string fails to parse is contradicted by the code: an observed time of
`"-1:00:00"` makes `robust_time_parser` raise `OverflowError`, which
propagates out of `calculate_delay` instead of producing `None`. -/
theorem c8_crash :
    calculate_delay (.pstr "08:00:00") (.pstr "-1:00:00") = .exn "OverflowError" := by
  decide

/-- C2 counterexample: an observation matching two static trips is NOT
treated as unmatchable — the inner merge keeps it and pairs it with both
candidates, so two different static trip ids are silently picked instead
of none. -/
theorem c2_counterexample :
    merge_rt_static [rtAmb] [stAmb1, stAmb2] = [(rtAmb, stAmb1), (rtAmb, stAmb2)] ∧
    stAmb1 ≠ stAmb2 := by
  decide

/-- C2 (amended): zero matching static trips exclude the observation (an
inner join drops it); exactly one match attaches that static trip; with
more than one match the observation is retained once per matching static
trip — the merge output carries exactly the list of matching static
trips, it never silently narrows an ambiguous set to one. -/
theorem c2_amended :
    (∀ (r : RtObs) (trips : List StaticTrip),
       trips.filter (tripKeyMatch r) = [] → merge_rt_static [r] trips = []) ∧
    (∀ (r : RtObs) (trips : List StaticTrip) (t : StaticTrip),
       trips.filter (tripKeyMatch r) = [t] → merge_rt_static [r] trips = [(r, t)]) ∧
    (∀ (r : RtObs) (trips : List StaticTrip),
       (merge_rt_static [r] trips).map (fun p => p.2) = trips.filter (tripKeyMatch r)) := by
  refine ⟨?_, ?_, ?_⟩
  · intro r trips h
    simp [merge_rt_static, h]
  · intro r trips t h
    simp [merge_rt_static, h]
  · intro r trips
    simp [merge_rt_static, List.map_map, Function.comp]

/-- C2 witness: a uniquely matching static trip is attached to the
observation. -/
theorem c2_witness : merge_rt_static [rtAmb] [stAmb1] = [(rtAmb, stAmb1)] :=
  c2_amended.2.1 rtAmb [stAmb1] stAmb1 (by decide)

/-- C4: when both times parse, the delay is observed minus scheduled in
seconds; if the observed time is more than 12 hours earlier than the
scheduled one, 24 hours are first added to the observed time (and only
then); in particular delay("23:58:00","00:02:00") = +240 and
delay("08:00:00","08:05:30") = +330, positive meaning late. -/
theorem c4_overnight :
    (∀ (ss as : PyObj) (sv av : Nat),
       robust_time_parse ss = .val (some sv) →
       robust_time_parse as = .val (some av) →
       (((sv : Int) - (av : Int) > 12 * 3600 →
          calculate_delay ss as = .val (some (((av : Int) + 86400) - (sv : Int)))) ∧
        ((sv : Int) - (av : Int) ≤ 12 * 3600 →
          calculate_delay ss as = .val (some ((av : Int) - (sv : Int)))))) ∧
    calculate_delay (.pstr "23:58:00") (.pstr "00:02:00") = .val (some 240) ∧
    calculate_delay (.pstr "08:00:00") (.pstr "08:05:30") = .val (some 330) := by
  refine ⟨?_, by decide, by decide⟩
  intro ss as sv av hs ha
  constructor
  · intro hgt
    have hcond : (av : Int) < (sv : Int) ∧ (sv : Int) - (av : Int) > 12 * 3600 := by omega
    simp only [calculate_delay, hs, ha, calcDelayCore]
    rw [if_pos hcond]
  · intro hle
    have hcond : ¬((av : Int) < (sv : Int) ∧ (sv : Int) - (av : Int) > 12 * 3600) := by omega
    simp only [calculate_delay, hs, ha, calcDelayCore]
    rw [if_neg hcond]

/-- C4 witness: the overnight pair from the spec, with its parse results
and the >12h condition discharged concretely. -/
theorem c4_witness :
    calculate_delay (.pstr "23:58:00") (.pstr "00:02:00") = .val (some 240) := by
  have h := (c4_overnight.1 (.pstr "23:58:00") (.pstr "00:02:00") 86280 120
    (by decide) (by decide)).1 (by decide)
  exact h.trans (by decide)

/-- A digit character contributes a value of at most 9. -/
theorem digit_val_le {c : Char} (h : isDigitCh c = true) : digitVal c ≤ 9 := by
  unfold isDigitCh at h
  rw [Bool.and_eq_true, decide_eq_true_eq, decide_eq_true_eq] at h
  unfold digitVal
  omega

/-- A parsed strptime field never exceeds its two-digit bound (for bounds
of at least 9, covering the one-digit case). -/
theorem fieldVal2_bound {cs : List Char} {b v : Nat} (hb : 9 ≤ b)
    (h : fieldVal2 cs b = some v) : v ≤ b := by
  unfold fieldVal2 at h
  split at h
  · split at h
    · rename_i hd
      cases h
      have := digit_val_le hd
      omega
    · cases h
  · split at h
    · rename_i hd
      rw [Bool.and_eq_true, Bool.and_eq_true, decide_eq_true_eq] at hd
      cases h
      exact hd.2
    · cases h
  · cases h

/-- A successful strptime parse yields a time strictly inside one day. -/
theorem strptime_lt {cs : List Char} {t : Nat} (h : strptimeHMS cs = some t) :
    t < 86400 := by
  unfold strptimeHMS at h
  split at h
  · split at h
    · rename_i hv mv sv hha hhb hhc
      cases h
      have h1 := fieldVal2_bound (by omega) hha
      have h2 := fieldVal2_bound (by omega) hhb
      have h3 := fieldVal2_bound (by omega) hhc
      omega
    · cases h
  · cases h

/-- The fallback branch, when it returns a time, returns one strictly
inside one day (the `.time()` reduction modulo 86400). -/
theorem fallback_lt {cs : List Char} {v : Nat}
    (h : fallbackMTA cs = .val (some v)) : v < 86400 := by
  simp only [fallbackMTA] at h
  repeat' split at h
  all_goals cases h
  omega

/-- Any time value produced by the parser is strictly inside one day. -/
theorem parse_lt {x : PyObj} {v : Nat}
    (h : robust_time_parse x = .val (some v)) : v < 86400 := by
  cases x with
  | nonstr => simp [robust_time_parse] at h
  | pstr s =>
    simp only [robust_time_parse] at h
    split at h
    · rename_i t hst
      cases h
      exact strptime_lt hst
    · exact fallback_lt h

/-- Range of the core delay arithmetic on two same-day time values. -/
theorem calcDelayCore_range {sv av : Nat} (hs : sv < 86400) (ha : av < 86400) :
    -43200 ≤ calcDelayCore sv av ∧ calcDelayCore sv av < 86400 := by
  unfold calcDelayCore
  split <;> omega

/-- C10: every numeric delay the calculator returns lies in
[-43200, 86400): both inputs are times inside one day and the overnight
correction only adds a day to an observed time more than 12 hours behind
the scheduled one. -/
theorem c10_delay_range (ss as : PyObj) (d : Int)
    (h : calculate_delay ss as = .val (some d)) : -43200 ≤ d ∧ d < 86400 := by
  unfold calculate_delay at h
  cases hs : robust_time_parse ss with
  | exn e => rw [hs] at h; simp at h
  | val stO =>
    rw [hs] at h
    cases ha : robust_time_parse as with
    | exn e => rw [ha] at h; simp at h
    | val atO =>
      rw [ha] at h
      rcases stO with _ | sv
      · simp at h
      rcases atO with _ | av
      · simp at h
      simp at h
      have hr := calcDelayCore_range (parse_lt hs) (parse_lt ha)
      omega

/-- C10 witness: a concrete computed delay, inside the proved range. -/
theorem c10_witness :
    calculate_delay (.pstr "08:00:00") (.pstr "08:05:30") = .val (some 330) ∧
    (-43200 ≤ (330 : Int) ∧ (330 : Int) < 86400) :=
  ⟨by decide, c10_delay_range (.pstr "08:00:00") (.pstr "08:05:30") 330 (by decide)⟩

/-- A Python weekday number is in 0..6. -/
theorem pyWeekday_lt (y m d : Nat) : pyWeekday y m d < 7 :=
  Nat.mod_lt _ (by omega)

/-- For every weekday number, `day_map` yields a column name whose dynamic
flag lookup coincides with the weekday-indexed flag. -/
theorem dayMap_colFlag (w : Nat) (hw : w < 7) :
    ∃ col, dictGet day_map w = some col ∧ ∀ r : CalRow, colFlag r col = weekFlag r w := by
  interval_cases w
  · exact ⟨"monday", by decide, fun r => by simp [colFlag, weekFlag]⟩
  · exact ⟨"tuesday", by decide, fun r => by simp [colFlag, weekFlag]⟩
  · exact ⟨"wednesday", by decide, fun r => by simp [colFlag, weekFlag]⟩
  · exact ⟨"thursday", by decide, fun r => by simp [colFlag, weekFlag]⟩
  · exact ⟨"friday", by decide, fun r => by simp [colFlag, weekFlag]⟩
  · exact ⟨"saturday", by decide, fun r => by simp [colFlag, weekFlag]⟩
  · exact ⟨"sunday", by decide, fun r => by simp [colFlag, weekFlag]⟩

/-- C5: on a well-formed `YYYYMMDD` string denoting a valid date, the
resolver returns exactly the first stored calendar row whose inclusive
window contains the date and whose flag for the date's weekday is set (as
`head?` of the filtered table in stored order), and `none` when no row
qualifies; the function is pure, so repeated calls with the same inputs
agree definitionally. -/
theorem c5_resolver (ds : String) (cal : List CalRow) (y m d : Nat) (n : Int)
    (hy : pyInt (pySliceStr ds 0 4) = some (y : Int))
    (hm : pyInt (pySliceStr ds 4 6) = some (m : Int))
    (hd : pyInt (pySliceStr ds 6 8) = some (d : Int))
    (hn : pyInt ds = some n)
    (hok : dateOkI (y : Int) (m : Int) (d : Int) = true) :
    get_service_id_for_date ds cal =
      .val (((cal.filter (fun r =>
        decide (r.start_date ≤ n) && decide (n ≤ r.end_date) &&
        decide (weekFlag r (pyWeekday y m d) = 1))).map (fun r => r.service_id)).head?) := by
  obtain ⟨col, hcol, hflag⟩ := dayMap_colFlag (pyWeekday y m d) (pyWeekday_lt y m d)
  have hfun : (fun r : CalRow =>
      decide (r.start_date ≤ n) && decide (n ≤ r.end_date) &&
      decide (colFlag r col = 1)) = (fun r : CalRow =>
      decide (r.start_date ≤ n) && decide (n ≤ r.end_date) &&
      decide (weekFlag r (pyWeekday y m d) = 1)) :=
    funext fun r => by rw [hflag r]
  simp only [get_service_id_for_date, hy, hm, hd, hn, hok, if_true,
    Int.toNat_natCast, hcol, hfun]

/-- C5 witness: 2024-01-02 was a Tuesday; the one-row calendar with the
Tuesday flag set and a window containing it resolves to its service id. -/
theorem c5_witness : get_service_id_for_date "20240102" calW = .val (some "WKD") := by
  have h := c5_resolver "20240102" calW 2024 1 2 20240102
    (by decide) (by decide) (by decide) (by decide) (by decide)
  exact h.trans (by decide)

/-- The per-record loop of `process_and_store_data`, explicitly: the
snapshot accumulates appends and the historical table accumulates
insert-or-ignores, independently. -/
theorem foldl_pair_eq (l : List Obs) : ∀ (rt hist : List Obs),
    l.foldl (fun st o => (st.1 ++ [o], insertOrIgnoreHist st.2 o)) (rt, hist)
      = (rt ++ l, l.foldl insertOrIgnoreHist hist) := by
  induction l with
  | nil => intro rt hist; simp
  | cons a t ih =>
    intro rt hist
    rw [List.foldl_cons, List.foldl_cons, ih]
    simp

/-- The historical table after one cycle is the insert-or-ignore fold of
the decoded rows. -/
theorem process_snd (stops : List (String × String)) (rtPrev hist : List Obs)
    (responses : List FeedRsp) :
    (process_and_store_data stops rtPrev hist responses).2
      = (decodedRows stops responses).foldl insertOrIgnoreHist hist := by
  unfold process_and_store_data
  rw [foldl_pair_eq]

/-- Insert-or-ignore preserves natural-key uniqueness. -/
theorem uniqueKeys_insert (tbl : List Obs) (o : Obs) (h : UniqueKeys tbl) :
    UniqueKeys (insertOrIgnoreHist tbl o) := by
  unfold insertOrIgnoreHist
  by_cases hk : hasKeyB tbl o
  · rw [if_pos hk]
    exact h
  · rw [if_neg hk]
    rw [Bool.not_eq_true] at hk
    unfold hasKeyB at hk
    rw [List.any_eq_false] at hk
    unfold UniqueKeys
    rw [List.pairwise_append]
    refine ⟨h, by simp, ?_⟩
    intro a ha b hb
    simp only [List.mem_singleton] at hb
    subst hb
    have := hk a ha
    simpa using this

/-- A fold of insert-or-ignores preserves natural-key uniqueness. -/
theorem uniqueKeys_foldl (l : List Obs) : ∀ hist : List Obs,
    UniqueKeys hist → UniqueKeys (l.foldl insertOrIgnoreHist hist) := by
  induction l with
  | nil => intro hist hh; simpa
  | cons a t ih =>
    intro hist hh
    rw [List.foldl_cons]
    exact ih _ (uniqueKeys_insert _ _ hh)

/-- Any run of ingestion cycles from the fresh databases keeps the
historical table's natural keys unique. -/
theorem runCycles_unique (cycles : List (List (String × String) × List FeedRsp)) :
    UniqueKeys (runCycles cycles).2 := by
  unfold runCycles
  suffices h : ∀ st : List Obs × List Obs, UniqueKeys st.2 →
      UniqueKeys ((cycles.foldl (fun st c => process_and_store_data c.1 st.1 st.2 c.2) st)).2 by
    exact h ([], []) List.Pairwise.nil
  induction cycles with
  | nil => intro st hst; simpa
  | cons c cs ih =>
    intro st hst
    rw [List.foldl_cons]
    refine ih _ ?_
    rw [process_snd]
    exact uniqueKeys_foldl _ _ hst

/-- Under key uniqueness, at most one stored row carries any given key. -/
theorem countKey_le_one (k : String × String × String) : ∀ tbl : List Obs,
    UniqueKeys tbl → countKey tbl k ≤ 1 := by
  intro tbl
  induction tbl with
  | nil => intro _; simp [countKey]
  | cons a t ih =>
    intro h
    rw [UniqueKeys, List.pairwise_cons] at h
    obtain ⟨h1, h2⟩ := h
    unfold countKey
    rw [List.filter_cons]
    by_cases ha : natKey a = k
    · have ht : t.filter (fun r => decide (natKey r = k)) = [] := by
        rw [List.filter_eq_nil_iff]
        intro b hb
        simp only [decide_eq_true_eq]
        intro hbk
        exact h1 b hb (ha.trans hbk.symm)
      simp [ha, ht]
    · have hf : decide (natKey a = k) = false := by simpa using ha
      simp only [hf, Bool.false_eq_true, if_false]
      exact ih h2

/-- If some stored row carries the key, at least one filtered row exists. -/
theorem countKey_pos (tbl : List Obs) (o : Obs) (h : hasKeyB tbl o = true) :
    1 ≤ countKey tbl (natKey o) := by
  unfold hasKeyB at h
  rw [List.any_eq_true] at h
  obtain ⟨r, hr, hdec⟩ := h
  rw [decide_eq_true_eq] at hdec
  have hm : r ∈ tbl.filter (fun x => decide (natKey x = natKey o)) :=
    List.mem_filter.mpr ⟨hr, by simp [hdec]⟩
  unfold countKey
  exact List.length_pos.mpr (List.ne_nil_of_mem hm)

/-- C6: starting from the freshly initialised databases, no sequence of
ingestion cycles ever leaves two historical rows with the same natural
key; inserting a row leaves exactly one stored row with its key; and
inserting a row whose key is already present changes nothing (idempotent
re-ingestion). -/
theorem c6_history_unique :
    (∀ cycles, UniqueKeys (runCycles cycles).2) ∧
    (∀ (tbl : List Obs) (o : Obs), UniqueKeys tbl →
       countKey (insertOrIgnoreHist tbl o) (natKey o) = 1) ∧
    (∀ (tbl : List Obs) (o : Obs), hasKeyB tbl o = true →
       insertOrIgnoreHist tbl o = tbl) := by
  refine ⟨runCycles_unique, ?_, fun tbl o h => by unfold insertOrIgnoreHist; rw [if_pos h]⟩
  intro tbl o h
  unfold insertOrIgnoreHist
  by_cases hk : hasKeyB tbl o
  · rw [if_pos hk]
    exact Nat.le_antisymm (countKey_le_one _ tbl h) (countKey_pos tbl o hk)
  · rw [if_neg hk]
    rw [Bool.not_eq_true] at hk
    unfold hasKeyB at hk
    rw [List.any_eq_false] at hk
    have ht : tbl.filter (fun r => decide (natKey r = natKey o)) = [] := by
      rw [List.filter_eq_nil_iff]
      intro b hb
      simpa using hk b hb
    unfold countKey
    rw [List.filter_append, ht]
    simp

/-- C6 witness: inserting into the empty table stores the row once, and
re-inserting the same natural key is a no-op. -/
theorem c6_witness :
    countKey (insertOrIgnoreHist [] obsW) (natKey obsW) = 1 ∧
    insertOrIgnoreHist [obsW] obsW = [obsW] :=
  ⟨c6_history_unique.2.1 [] obsW List.Pairwise.nil,
   c6_history_unique.2.2 [obsW] obsW (by decide)⟩

/-- C7: at the end of any ingestion cycle the snapshot table holds exactly
the rows decoded in that cycle, in decode order, independently of whatever
the snapshot held before the cycle's initial truncation. -/
theorem c7_snapshot (stops : List (String × String)) (rtPrev hist : List Obs)
    (responses : List FeedRsp) :
    (process_and_store_data stops rtPrev hist responses).1
      = decodedRows stops responses := by
  unfold process_and_store_data
  rw [foldl_pair_eq]
  simp

/-- C9: every row of the emitted dataset carries a defined delay of
magnitude strictly below 7200 seconds, and the dataset is a sublist of the
computed rows — offending rows are removed whole, never clipped and never
stored with a null delay. -/
theorem c9_final_filter :
    (∀ (rows : List FinalRow) (r : FinalRow), r ∈ finalDataset rows →
       ∃ v, r.delay_seconds = some v ∧ -7200 < v ∧ v < 7200) ∧
    (∀ rows : List FinalRow, (finalDataset rows).Sublist rows) := by
  constructor
  · intro rows r hr
    unfold finalDataset filterDelayMagnitude at hr
    rw [List.mem_filter] at hr
    obtain ⟨_, hp⟩ := hr
    cases hv : r.delay_seconds with
    | none => rw [hv] at hp; simp at hp
    | some v =>
      rw [hv] at hp
      simp only [decide_eq_true_eq] at hp
      exact ⟨v, rfl, by omega, by omega⟩
  · intro rows
    unfold finalDataset filterDelayMagnitude dropnaDelay
    exact (List.filter_sublist _).trans (List.filter_sublist _)

/-- C9 witness: in a batch holding a plausible row, a 9000-second row and
an uncomputed row, the kept row is in the dataset with its delay bounds. -/
theorem c9_witness :
    ∃ v, rowKept.delay_seconds = some v ∧ -7200 < v ∧ v < 7200 :=
  c9_final_filter.1 rowsW rowKept (by decide)
